import Mathlib

/-!
# Verification development for the pkgj streaming PKG download pipeline

Shallow embedding of `src/pkgi_download.cpp` and `src/install.cpp`.

Modelling conventions:
* bytes are `Nat` (values below 256 where relevant);
* the HTTP source is a fixed list of bytes `source`; `_http->start(url, off)`
  positions the stream at `source.drop off` and `get_length()` returns the
  remaining length (the code rejects negative lengths, which cannot arise
  here); each `_http->read` call is parametrised by a nondeterministic
  `nRead` bound on how many bytes the transport hands back this time;
* the library crypto primitives (`aes128_encrypt`, the `aes128_ctr`
  keystream, `sha256_*`) live outside this repository; AES-CTR is modelled
  over an abstract keystream `ks : Nat → Nat` giving the keystream byte at
  each stream offset (matching the byte-offset-addressable contract the
  code relies on), AES-128-ECB block encryption is an abstract
  `aesEnc : key → block → block`, and the SHA-256 state is modelled by the
  exact list of bytes fed to `sha256_update`, in order (`sha256_finish` is
  an abstract function of that list);
* the I/O façade (`pkgi_create`/`pkgi_write`/`pkgi_rm`/...) is modelled by
  an in-memory store that always succeeds; `pkgi_write`/`pkgi_create`
  failure raises a `DownloadError` in the code, a path none of the claims
  depends on; the loop buffer `down` has an unspecified size (declared in
  the class header, not part of this repository's shown sources), so its
  size is a parameter `bufSize`;
* fallible operations return `Except String α`; the string is the
  `DownloadError` message; a clean cancellation abort (the `size <= 0`
  early returns in the phase loops) is `Except.ok none`.
-/

namespace Pkgj

/-! ## Definitions -/

/-- AES-128-CTR keystream XOR at an arbitrary byte stream offset: models
`aes128_ctr(&aes, iv, stream_offset, buffer, size)`, which XORs `buffer`
with the keystream bytes starting at byte position `stream_offset` of the
CTR stream.  `ks off` is the keystream byte at stream offset `off` (a
function of the derived key and the IV, both fixed for a session). -/
def aes128_ctr (ks : Nat → Nat) : Nat → List Nat → List Nat
  | _, [] => []
  | off, b :: rest => (b ^^^ ks off) :: aes128_ctr ks (off + 1) rest

/-- Download session state: the fields of class `Download` that the
pipeline mutates while streaming (`pkgi_download.cpp`).
`httpStarted`/`httpStartedAt` model the lazily-opened HTTP stream
(`if (!*_http) _http->start(download_url, download_offset)`); `shaBytes`
is the list of bytes fed to `sha256_update` so far, in order;
`itemFileBytes` is the content of the currently open `item_file`. -/
structure DLState where
  httpStarted : Bool
  httpStartedAt : Option Nat
  downloadOffset : Nat
  downloadSize : Nat
  shaBytes : List Nat
  encryptedBase : Nat
  encryptedOffset : Nat
  decryptedSize : Nat
  itemFileBytes : List Nat
deriving DecidableEq, Repr

/-- The lazy HTTP start at the top of `download_data`
(`pkgi_download.cpp` lines 49-67): open the stream at the current
`download_offset` and set `download_size = http_length + download_offset`,
where `http_length` is the remaining length from that offset. -/
def dd_start (source : List Nat) (s : DLState) : DLState :=
  if s.httpStarted then s else
    { s with httpStarted := true, httpStartedAt := some s.downloadOffset,
             downloadSize := (source.length - s.downloadOffset) + s.downloadOffset }

/-- The state update of one successful `download_data` body after `read`
bytes arrived (`pkgi_download.cpp` lines 80-110): advance
`download_offset`, `sha256_update` over the raw bytes, optionally CTR
decrypt at `encrypted_base + encrypted_offset` and advance
`encrypted_offset`, optionally write (for encrypted items only the first
`min64(decrypted_size, read)` decrypted bytes, decrementing
`decrypted_size` by the amount written). -/
def dd_next (ks : Nat → Nat) (source : List Nat) (read : Nat)
    (encrypted save : Bool) (s1 : DLState) : DLState :=
  let buf := (source.drop s1.downloadOffset).take read
  let s2 := { s1 with downloadOffset := s1.downloadOffset + read,
                      shaBytes := s1.shaBytes ++ buf }
  let dec := if encrypted then
      aes128_ctr ks (s2.encryptedBase + s2.encryptedOffset) buf
    else buf
  let s3 := if encrypted then
      { s2 with encryptedOffset := s2.encryptedOffset + read }
    else s2
  if save then
    let w := if encrypted then min s3.decryptedSize read else read
    let s4 := if encrypted then { s3 with decryptedSize := s3.decryptedSize - w }
      else s3
    { s4 with itemFileBytes := s4.itemFileBytes ++ dec.take w }
  else s3

/-- `Download::download_data(buffer, size, encrypted, save)`
(`pkgi_download.cpp` lines 39-113).  `canceled` is the `is_canceled()`
poll at entry; `nRead` bounds how many bytes this `_http->read` returns
(the transport may return fewer bytes than requested).  Returns the bytes
read together with the updated session state; a read of zero bytes before
the expected end is the fatal "connection closed" error. -/
def download_data (ks : Nat → Nat) (source : List Nat) (canceled : Bool)
    (nRead size : Nat) (encrypted save : Bool) (s : DLState) :
    Except String (Nat × DLState) :=
  if canceled then .ok (0, s)
  else
    let s1 := dd_start source s
    let read := min (min nRead size) (source.length - s1.downloadOffset)
    if read = 0 then .error "HTTP 鏈接關閉"
    else .ok (read, dd_next ks source read encrypted save s1)

/-- The session-state initialisation performed by `Download::pkgi_download`
(`pkgi_download.cpp` lines 600-614) on entry: `sha256_init`,
`item_file = NULL`, `download_size = 0`, `download_offset = 0`, and a
fresh (not yet started) HTTP stream. -/
def pkgi_download_init (s : DLState) : DLState :=
  { s with httpStarted := false, httpStartedAt := none,
           downloadOffset := 0, downloadSize := 0, shaBytes := [] }

/-- A run of arbitrary `download_data` calls: each event carries the
`is_canceled()` flag, the transport's `nRead` bound, the requested `size`
and the `encrypted`/`save` flags of that call. -/
def run_downloads (ks : Nat → Nat) (source : List Nat) :
    List (Bool × Nat × Nat × Bool × Bool) → DLState → Except String DLState
  | [], s => .ok s
  | (c, nr, sz, e, sv) :: rest, s =>
    match download_data ks source c nr sz e sv s with
    | .error msg => .error msg
    | .ok (_, s') => run_downloads ks source rest s'

/-- Fixed key constant `pkg_psp_key` (`pkgi_download.cpp` line 12). -/
def pkg_psp_key : List Nat :=
  [0x07, 0xf2, 0xc6, 0x82, 0x90, 0xb5, 0x0d, 0x2c,
   0x33, 0x81, 0x8d, 0x70, 0x9b, 0x60, 0xe6, 0x2b]

/-- Fixed key constant `pkg_vita_2` (`pkgi_download.cpp` line 13). -/
def pkg_vita_2 : List Nat :=
  [0xe3, 0x1a, 0x70, 0xc9, 0xce, 0x1d, 0xd7, 0x2b,
   0xf3, 0xc0, 0x62, 0x29, 0x63, 0xf2, 0xec, 0xcb]

/-- Fixed key constant `pkg_vita_3` (`pkgi_download.cpp` line 14). -/
def pkg_vita_3 : List Nat :=
  [0x42, 0x3a, 0xca, 0x3a, 0x2b, 0xd5, 0x64, 0x9f,
   0x96, 0x86, 0xab, 0xad, 0x6f, 0xd8, 0x80, 0x1f]

/-- Fixed key constant `pkg_vita_4` (`pkgi_download.cpp` line 15). -/
def pkg_vita_4 : List Nat :=
  [0xaf, 0x07, 0xfd, 0x59, 0x65, 0x25, 0x27, 0xba,
   0xf1, 0x33, 0x89, 0x66, 0x8b, 0x17, 0xd9, 0xea]

/-- The package-key derivation of `Download::download_head`
(`pkgi_download.cpp` lines 214-239).  `headE7` is the header byte
`head[0xe7]`; `iv` is the 16-byte header IV copied from `head + 0x70`.
`aesEnc key block` models `aes128_init(&ctx, key); aes128_encrypt(&ctx,
block, out)`, the library AES-128-ECB single-block encryption (external
to this repository). -/
def derive_key (aesEnc : List Nat → List Nat → List Nat) (headE7 : Nat)
    (iv : List Nat) : Except String (List Nat) :=
  let key_type := headE7 &&& 7
  if key_type = 1 then .ok pkg_psp_key
  else if key_type = 2 then .ok (aesEnc pkg_vita_2 iv)
  else if key_type = 3 then .ok (aesEnc pkg_vita_3 iv)
  else if key_type = 4 then .ok (aesEnc pkg_vita_4 iv)
  else .error ("無效的秘鑰類型 " ++ toString key_type)

/-- `encrypted_size = (item_size + AES_BLOCK_SIZE - 1) &
~((uint64_t)AES_BLOCK_SIZE - 1)` (`pkgi_download.cpp` lines 382-383):
`item_size` rounded up to a whole number of 16-byte AES blocks. -/
def pkg_encrypted_size (itemSize : Nat) : Nat :=
  16 * ((itemSize + 16 - 1) / 16)

/-- The per-item drain loop of `download_files`
(`pkgi_download.cpp` lines 456-465, and lines 407-416 for the
content-type-6 discard drain): repeat
`download_data(down, min(sizeof(down), encrypted_size - encrypted_offset),
1, save)` until `encrypted_offset == encrypted_size`; a non-positive
return aborts cleanly (`.ok none`).  The event list supplies the
`is_canceled()` flag and `nRead` bound of each iteration; its exhaustion
before the loop ends is reported as an error (the claims only consider
completed loops). -/
def drain_item (ks : Nat → Nat) (source : List Nat) (bufSize encSize : Nat)
    (save : Bool) : List (Bool × Nat) → DLState → Except String (Option DLState)
  | [], s =>
    if s.encryptedOffset = encSize then .ok (some s)
    else .error "傳輸事件耗盡"
  | (c, nr) :: rest, s =>
    if s.encryptedOffset = encSize then .ok (some s)
    else
      match download_data ks source c nr
          (min bufSize (encSize - s.encryptedOffset)) true save s with
      | .error e => .error e
      | .ok (n, s') =>
        if n = 0 then .ok none
        else drain_item ks source bufSize encSize save rest s'

/-- One decrypted 32-byte file-index record of the PKG
(`pkgi_download.cpp` lines 366-370): `name_offset` (u32), the decrypted
file name (whose length is `name_size`), `item_offset` (u64), `item_size`
(u64), and the type byte `item[27]`. -/
structure PkgItem where
  nameOffset : Nat
  name : String
  itemOffset : Nat
  itemSize : Nat
  typ : Nat
deriving DecidableEq, Repr

/-- What processing one index entry in `Download::download_files`
(`pkgi_download.cpp` lines 372-465) does, as far as the filesystem and
`download_data` are concerned. -/
inductive EntryAction where
  /-- drain `encSize` bytes through `download_data(_, _, encrypted, save)`;
  `file` is the output file created beforehand (`none` for the
  content-type-6 discard drain, which creates no file). -/
  | drain (file : Option String) (encSize : Nat) (encrypted save : Bool)
  /-- `pkgi_mkdirs(item_path)` for a directory entry (type 4). -/
  | mkdir (path : String)
  /-- type-18 entries are skipped with no I/O. -/
  | skip
  /-- a `DownloadError` with message `msg`; `created` lists the output
  files created before the throw. -/
  | fatal (msg : String) (created : List String)
deriving DecidableEq, Repr

/-- Processing of one index entry by `Download::download_files`
(`pkgi_download.cpp` lines 359-465): bound-check the name, route
`item_path` by content type (content type 6 materialises only
`USRDIR/CONTENT/DOCUMENT.DAT` and `USRDIR/CONTENT/EBOOT.PBP` and drains
any other entry with `encrypted=1, save=0`), handle directory (type 4)
and skip (type 18) entries, create the output file, check the ordering
invariant `enc_offset + item_offset + encrypted_offset == download_offset`
and the size bound, then drain the item with `encrypted=1, save=1`.
`nameCap` is `sizeof(item_name) - 1` (class-header constant). -/
def processEntry (nameCap contentType : Nat) (encOffset totalSize : Nat)
    (downloadOffset : Nat) (root : String) (e : PkgItem) : EntryAction :=
  if e.name.length > nameCap ∨ encOffset + e.nameOffset + e.name.length > totalSize then
    .fatal "pkg文件過小或損壞" []
  else
    let encryptedSize := pkg_encrypted_size e.itemSize
    let encryptedOffset := 0
    let routed : Option String :=
      if contentType = 6 then
        if e.name = "USRDIR/CONTENT/DOCUMENT.DAT" then some (root ++ "/DOCUMENT.DAT")
        else if e.name = "USRDIR/CONTENT/EBOOT.PBP" then some (root ++ "/EBOOT.PBP")
        else none
      else some (root ++ "/" ++ e.name)
    match routed with
    | none => .drain none encryptedSize true false
    | some path =>
      if e.typ = 4 then .mkdir path
      else if e.typ = 18 then .skip
      else
        -- create_file() makes the parent folders and creates item_path,
        -- then the ordering invariant is checked
        if encOffset + e.itemOffset + encryptedOffset ≠ downloadOffset then
          .fatal ("pkg文件不被支援, 文件順序錯誤, 期望的: " ++
              toString (encOffset + e.itemOffset + encryptedOffset) ++
              ", 實際的: " ++ toString downloadOffset) [path]
        else if encOffset + e.itemOffset + e.itemSize > totalSize then
          .fatal "pkg文件過小或損壞" [path]
        else .drain (some path) encryptedSize true true

/-- First loop of `Download::download_tail`
(`pkgi_download.cpp` lines 501-511): while
`download_offset < tail_offset` drain
`min(sizeof(down), tail_offset - download_offset)` bytes through
`download_data(down, read, 0, 0)`. -/
def tail_loop1 (ks : Nat → Nat) (source : List Nat) (bufSize tailOffset : Nat) :
    List (Bool × Nat) → DLState → Except String (Option DLState)
  | [], s =>
    if s.downloadOffset < tailOffset then .error "傳輸事件耗盡"
    else .ok (some s)
  | (c, nr) :: rest, s =>
    if s.downloadOffset < tailOffset then
      match download_data ks source c nr
          (min bufSize (tailOffset - s.downloadOffset)) false false s with
      | .error e => .error e
      | .ok (n, s') =>
        if n = 0 then .ok none
        else tail_loop1 ks source bufSize tailOffset rest s'
    else .ok (some s)

/-- Second loop of `Download::download_tail`
(`pkgi_download.cpp` lines 513-522): while
`download_offset != total_size` drain
`min(sizeof(down), total_size - download_offset)` bytes through
`download_data(down, read, 0, content_type != 6)`. -/
def tail_loop2 (ks : Nat → Nat) (source : List Nat) (bufSize totalSize : Nat)
    (save : Bool) : List (Bool × Nat) → DLState → Except String (Option DLState)
  | [], s =>
    if s.downloadOffset ≠ totalSize then .error "傳輸事件耗盡"
    else .ok (some s)
  | (c, nr) :: rest, s =>
    if s.downloadOffset ≠ totalSize then
      match download_data ks source c nr
          (min bufSize (totalSize - s.downloadOffset)) false save s with
      | .error e => .error e
      | .ok (n, s') =>
        if n = 0 then .ok none
        else tail_loop2 ks source bufSize totalSize save rest s'
    else .ok (some s)

/-- `Download::download_tail` (`pkgi_download.cpp` lines 477-526): create
`root/sce_sys/package/tail.bin` (unconditionally, via `create_file()`),
drain up to `enc_offset + enc_size` with `encrypted=0, save=0`, then
drain up to `total_size` with `encrypted=0, save=(content_type != 6)`.
`created` accumulates the output files created so far; the currently open
`item_file` (the freshly created, hence empty, `tail.bin`) is
`itemFileBytes`. -/
def download_tail (ks : Nat → Nat) (source : List Nat) (bufSize : Nat)
    (contentType encOffset encSize totalSize : Nat) (root : String)
    (evts1 evts2 : List (Bool × Nat)) (s : DLState) (created : List String) :
    Except String (Option (DLState × List String)) :=
  let path := root ++ "/sce_sys/package/tail.bin"
  let created1 := path :: created
  let s0 := { s with itemFileBytes := [] }
  match tail_loop1 ks source bufSize (encOffset + encSize) evts1 s0 with
  | .error e => .error e
  | .ok none => .ok none
  | .ok (some s1) =>
    match tail_loop2 ks source bufSize totalSize (contentType != 6) evts2 s1 with
    | .error e => .error e
    | .ok none => .ok none
    | .ok (some s2) => .ok (some (s2, created1))

/-- `pkgi_memequ`: the byte-exact equality compare used for the digest
check (library primitive; timing-safety is irrelevant to the value). -/
def pkgi_memequ (a b : List Nat) : Bool :=
  a == b

/-- `pkgi_rm(path)` on the in-memory file store. -/
def pkgi_rm (files : List String) (path : String) : List String :=
  files.filter (fun f => f ≠ path)

/-- `Download::check_integrity(digest)` (`pkgi_download.cpp` lines
528-553): with no digest, succeed without finalising the hash; otherwise
`sha256_finish` and compare to the expected digest; on mismatch remove
`root/sce_sys/package/head.bin` and raise the integrity `DownloadError`.
Returns the file store and whether the hash was finalised; the error case
carries the file store after the removal. -/
def check_integrity (sha256finish : List Nat → List Nat)
    (digest : Option (List Nat)) (root : String) (s : DLState)
    (files : List String) :
    Except (String × List String) (List String × Bool) :=
  match digest with
  | none => .ok (files, false)
  | some d =>
    let check := sha256finish s.shaBytes
    if !(pkgi_memequ d check) then
      .error ("pkg完整性效驗錯誤, 請嘗試重新下載",
        pkgi_rm files (root ++ "/sce_sys/package/head.bin"))
    else .ok (files, true)

/-- Directory-level view of the console filesystem used by the install
dispatcher (`install.cpp`): the set of directories present. -/
structure VitaFS where
  dirs : List String
deriving DecidableEq, Repr

/-- `pkgi_delete_dir(path)`: remove the directory. -/
def pkgi_delete_dir (fs : VitaFS) (path : String) : VitaFS :=
  ⟨fs.dirs.filter (fun d => d ≠ path)⟩

/-- `sceIoRename(src, dest)`: a single-step rename that fails when the
source is absent (a negative return in the code, raised as an error). -/
def vita_rename (fs : VitaFS) (src dest : String) : Except String VitaFS :=
  if src ∈ fs.dirs then
    .ok ⟨fs.dirs.map (fun d => if d = src then dest else d)⟩
  else .error "無法重命名"

/-- One row of the shell application-inventory database `tbl_appinfo`. -/
structure DbRow where
  titleId : String
  key : Nat
  val : String
deriving DecidableEq, Repr

/-- The prepared statement `UPDATE tbl_appinfo SET val = ? WHERE
titleId = ? AND key = 3168212510` with `(version, titleid)` bound
(`install.cpp` lines 122-141). -/
def db_update_version (db : List DbRow) (titleid version : String) :
    List DbRow :=
  db.map (fun r =>
    if r.titleId = titleid ∧ r.key = 3168212510 then
      ⟨r.titleId, r.key, version⟩
    else r)

/-- `pkgi_install_update(contentid)` (`install.cpp` lines 88-146):
`titleid` is the 9 characters of the content id starting at index 7;
delete any existing `ux0:patch/<titleid>`, rename the staged
`ux0:pkgj/<contentid>` there, read `APP_VER` from the renamed
directory's `sce_sys/param.sfo` (`sfoAppVer` maps a `param.sfo` path to
the `APP_VER` string `pkgi_sfo_get_string` returns, empty when absent),
require a 5-character version, then run the shell-database update.  The
claims do not depend on `sqlite3_open`/`prepare` failures, so the
database is always reachable. -/
def pkgi_install_update (contentid : String) (sfoAppVer : String → String)
    (fs : VitaFS) (db : List DbRow) : Except String (VitaFS × List DbRow) :=
  let titleid := (contentid.drop 7).take 9
  let src := "ux0:pkgj/" ++ contentid
  let dest := "ux0:patch/" ++ titleid
  let fs1 := pkgi_delete_dir fs dest
  match vita_rename fs1 src dest with
  | .error e => .error e
  | .ok fs2 =>
    let version := sfoAppVer (dest ++ "/sce_sys/param.sfo")
    if version = "" then .error "在param.sfo中無法獲取版本參數"
    else if version.length ≠ 5 then
      .error ("版本參數不正確: " ++ toString version.length)
    else .ok (fs2, db_update_version db titleid version)

/-- `pkgi_extract_package_version(package)` (`install.cpp` lines 21-25):
load `<package>/sce_sys/param.sfo` and extract `APP_VER`. -/
def pkgi_extract_package_version (sfoAppVer : String → String)
    (package : String) : String :=
  sfoAppVer (package ++ "/sce_sys/param.sfo")

/-- `pkgi_get_game_version(titleid)` (`install.cpp` lines 28-39): prefer
the patch directory's `APP_VER`, fall back to the app directory's, else
the empty string.  `fileExists` is the `pkgi_file_exists` probe. -/
def pkgi_get_game_version (titleid : String) (fileExists : String → Bool)
    (sfoAppVer : String → String) : String :=
  let patch_dir := "ux0:patch/" ++ titleid
  if fileExists patch_dir then pkgi_extract_package_version sfoAppVer patch_dir
  else
    let game_dir := "ux0:app/" ++ titleid
    if fileExists game_dir then pkgi_extract_package_version sfoAppVer game_dir
    else ""

/-- Result extractor: the files created by a completed `download_tail`. -/
def tail_created (r : Except String (Option (DLState × List String))) :
    List String :=
  match r with
  | .ok (some (_, c)) => c
  | _ => []

/-- Result extractor: the offset at which the (lazily started) HTTP
stream was opened after a `download_data` call. -/
def started_at (r : Except String (Nat × DLState)) : Option Nat :=
  match r with
  | .ok (_, s) => s.httpStartedAt
  | _ => none

/-! ## Lemmas about AES-CTR and one `download_data` step -/

theorem aes128_ctr_length (ks : Nat → Nat) :
    ∀ (off : Nat) (l : List Nat), (aes128_ctr ks off l).length = l.length
  | _, [] => rfl
  | off, _ :: rest => by simp [aes128_ctr, aes128_ctr_length ks (off + 1) rest]

theorem aes128_ctr_take (ks : Nat → Nat) :
    ∀ (l : List Nat) (off n : Nat),
    (aes128_ctr ks off l).take n = aes128_ctr ks off (l.take n)
  | [], off, n => by simp [aes128_ctr]
  | b :: rest, off, 0 => by simp [aes128_ctr]
  | b :: rest, off, n + 1 => by
      simp [aes128_ctr, aes128_ctr_take ks rest (off + 1) n]

theorem aes128_ctr_drop (ks : Nat → Nat) :
    ∀ (l : List Nat) (off n : Nat),
    (aes128_ctr ks off l).drop n = aes128_ctr ks (off + n) (l.drop n)
  | [], off, n => by simp [aes128_ctr]
  | b :: rest, off, 0 => by simp [aes128_ctr]
  | b :: rest, off, n + 1 => by
      have h := aes128_ctr_drop ks rest (off + 1) n
      simp [aes128_ctr, h]
      ring_nf

theorem dd_start_shaBytes (source : List Nat) (s : DLState) :
    (dd_start source s).shaBytes = s.shaBytes := by
  unfold dd_start; split <;> rfl

theorem dd_start_downloadOffset (source : List Nat) (s : DLState) :
    (dd_start source s).downloadOffset = s.downloadOffset := by
  unfold dd_start; split <;> rfl

theorem dd_start_encryptedBase (source : List Nat) (s : DLState) :
    (dd_start source s).encryptedBase = s.encryptedBase := by
  unfold dd_start; split <;> rfl

theorem dd_start_encryptedOffset (source : List Nat) (s : DLState) :
    (dd_start source s).encryptedOffset = s.encryptedOffset := by
  unfold dd_start; split <;> rfl

theorem dd_start_decryptedSize (source : List Nat) (s : DLState) :
    (dd_start source s).decryptedSize = s.decryptedSize := by
  unfold dd_start; split <;> rfl

theorem dd_start_itemFileBytes (source : List Nat) (s : DLState) :
    (dd_start source s).itemFileBytes = s.itemFileBytes := by
  unfold dd_start; split <;> rfl

theorem dd_start_httpStartedAt (source : List Nat) (s : DLState) :
    (dd_start source s).httpStartedAt =
      if s.httpStarted then s.httpStartedAt else some s.downloadOffset := by
  unfold dd_start; split <;> simp_all

theorem dd_next_httpStartedAt (ks : Nat → Nat) (source : List Nat) (r : Nat)
    (e sv : Bool) (s : DLState) :
    (dd_next ks source r e sv s).httpStartedAt = s.httpStartedAt := by
  cases e <;> cases sv <;> simp [dd_next]

theorem dd_next_shaBytes (ks : Nat → Nat) (source : List Nat) (r : Nat)
    (e sv : Bool) (s : DLState) :
    (dd_next ks source r e sv s).shaBytes =
      s.shaBytes ++ (source.drop s.downloadOffset).take r := by
  cases e <;> cases sv <;> simp [dd_next]

theorem dd_next_downloadOffset (ks : Nat → Nat) (source : List Nat) (r : Nat)
    (e sv : Bool) (s : DLState) :
    (dd_next ks source r e sv s).downloadOffset = s.downloadOffset + r := by
  cases e <;> cases sv <;> simp [dd_next]

theorem dd_next_encryptedOffset (ks : Nat → Nat) (source : List Nat) (r : Nat)
    (e sv : Bool) (s : DLState) :
    (dd_next ks source r e sv s).encryptedOffset =
      if e then s.encryptedOffset + r else s.encryptedOffset := by
  cases e <;> cases sv <;> simp [dd_next]

theorem dd_next_decryptedSize (ks : Nat → Nat) (source : List Nat) (r : Nat)
    (e sv : Bool) (s : DLState) :
    (dd_next ks source r e sv s).decryptedSize =
      if e ∧ sv then s.decryptedSize - min s.decryptedSize r else s.decryptedSize := by
  cases e <;> cases sv <;> simp [dd_next]

theorem dd_next_itemFileBytes (ks : Nat → Nat) (source : List Nat) (r : Nat)
    (e sv : Bool) (s : DLState) :
    (dd_next ks source r e sv s).itemFileBytes =
      if sv then
        s.itemFileBytes ++
          (if e then
            (aes128_ctr ks (s.encryptedBase + s.encryptedOffset)
              ((source.drop s.downloadOffset).take r)).take (min s.decryptedSize r)
          else ((source.drop s.downloadOffset).take r).take r)
      else s.itemFileBytes := by
  cases e <;> cases sv <;> simp [dd_next]

theorem dd_next_encryptedBase (ks : Nat → Nat) (source : List Nat) (r : Nat)
    (e sv : Bool) (s : DLState) :
    (dd_next ks source r e sv s).encryptedBase = s.encryptedBase := by
  cases e <;> cases sv <;> simp [dd_next]

/-- Characterisation of a successful `download_data` call: either the
session was cancelled (zero bytes, state untouched) or the transport
returned a positive number of bytes and the state advanced by
`dd_next ∘ dd_start`. -/
theorem download_data_ok (ks : Nat → Nat) (source : List Nat) (c : Bool)
    (nr sz : Nat) (e sv : Bool) (s : DLState) (n : Nat) (s' : DLState)
    (h : download_data ks source c nr sz e sv s = .ok (n, s')) :
    (c = true ∧ n = 0 ∧ s' = s) ∨
    (c = false ∧ n = min (min nr sz) (source.length - s.downloadOffset) ∧ 0 < n ∧
      s' = dd_next ks source n e sv (dd_start source s)) := by
  unfold download_data at h
  split at h
  · left; simp_all
  · right
    have hoff : (dd_start source s).downloadOffset = s.downloadOffset := by
      unfold dd_start; split <;> rfl
    simp only [hoff] at h
    split at h
    · simp at h
    · simp only [Except.ok.injEq, Prod.mk.injEq] at h
      obtain ⟨h1, h2⟩ := h
      subst h1; subst h2
      simp_all
      omega

/-- The SHA invariant: across any run of `download_data` calls, the bytes
fed to `sha256_update` are exactly the raw served stream
`source.take download_offset`. -/
theorem run_downloads_sha (ks : Nat → Nat) (source : List Nat) :
    ∀ (evts : List (Bool × Nat × Nat × Bool × Bool)) (s s' : DLState),
    s.shaBytes = source.take s.downloadOffset →
    s.downloadOffset ≤ source.length →
    run_downloads ks source evts s = .ok s' →
    s'.shaBytes = source.take s'.downloadOffset ∧ s'.downloadOffset ≤ source.length
  | [], s, s', hsha, hle, h => by
      simp [run_downloads] at h; subst h; exact ⟨hsha, hle⟩
  | (c, nr, sz, e, sv) :: rest, s, s', hsha, hle, h => by
      simp only [run_downloads] at h
      cases hdd : download_data ks source c nr sz e sv s with
      | error msg => rw [hdd] at h; simp at h
      | ok p =>
        rw [hdd] at h
        simp only at h
        obtain ⟨n, s1⟩ := p
        rcases download_data_ok ks source c nr sz e sv s n s1 hdd with
          ⟨_, _, hs1⟩ | ⟨_, hn, hpos, hs1⟩
        · exact run_downloads_sha ks source rest s1 s' (hs1 ▸ hsha) (hs1 ▸ hle) h
        · have hsha1 : s1.shaBytes = source.take s1.downloadOffset := by
            rw [hs1, dd_next_shaBytes, dd_start_shaBytes, dd_start_downloadOffset,
                dd_next_downloadOffset, dd_start_downloadOffset, hsha]
            exact (List.take_add source s.downloadOffset n).symm
          have hle1 : s1.downloadOffset ≤ source.length := by
            rw [hs1, dd_next_downloadOffset, dd_start_downloadOffset]
            omega
          exact run_downloads_sha ks source rest s1 s' hsha1 hle1 h

/-- Decrypting a chunk of the ciphertext at CTR offset `base + e` gives
the corresponding slice of the full decrypted item. -/
theorem ctr_chunk (ks : Nat → Nat) (source : List Nat)
    (base d0 encSize e n w : Nat) (hne : e + n ≤ encSize) (hwn : w ≤ n) :
    (aes128_ctr ks (base + e) ((source.drop (d0 + e)).take n)).take w =
      ((aes128_ctr ks base ((source.drop d0).take encSize)).drop e).take w := by
  rw [aes128_ctr_drop, aes128_ctr_take, aes128_ctr_take]
  congr 1
  rw [List.take_take, List.drop_take, List.drop_drop, List.take_take]
  congr 1
  omega

/-- The item-drain invariant for the saving drain (`encrypted=1,
save=1`): a completed drain writes to `item_file` exactly the first
`item_size` bytes of the CTR decryption of the item's `encrypted_size`
ciphertext bytes, consumes exactly `encrypted_size` stream bytes, and
leaves `decrypted_size` at zero. -/
theorem drain_item_save_spec (ks : Nat → Nat) (source : List Nat)
    (bufSize encSize itemSize d0 base : Nat) (pre : List Nat) :
    ∀ (evts : List (Bool × Nat)) (s s' : DLState),
    s.encryptedOffset ≤ encSize →
    s.downloadOffset = d0 + s.encryptedOffset →
    s.encryptedBase = base →
    d0 + encSize ≤ source.length →
    itemSize ≤ encSize →
    s.decryptedSize = itemSize - min s.encryptedOffset itemSize →
    s.itemFileBytes = pre ++
      (aes128_ctr ks base ((source.drop d0).take encSize)).take
        (min s.encryptedOffset itemSize) →
    drain_item ks source bufSize encSize true evts s = .ok (some s') →
    s'.encryptedOffset = encSize ∧
    s'.downloadOffset = d0 + encSize ∧
    s'.decryptedSize = itemSize - itemSize ∧
    s'.itemFileBytes = pre ++
      (aes128_ctr ks base ((source.drop d0).take encSize)).take itemSize
  | [], s, s', h1, h2, h3, h4, h5, h6, h7, h => by
      unfold drain_item at h
      split at h
      · simp only [Except.ok.injEq, Option.some.injEq] at h
        subst h
        refine ⟨by omega, by omega, by omega, ?_⟩
        rw [h7]
        congr 2
        omega
      · simp at h
  | (c, nr) :: rest, s, s', h1, h2, h3, h4, h5, h6, h7, h => by
      unfold drain_item at h
      split at h
      · simp only [Except.ok.injEq, Option.some.injEq] at h
        subst h
        refine ⟨by omega, by omega, by omega, ?_⟩
        rw [h7]
        congr 2
        omega
      · rename_i hlt
        cases hdd : download_data ks source c nr
            (min bufSize (encSize - s.encryptedOffset)) true true s with
        | error msg => rw [hdd] at h; simp at h
        | ok p =>
          rw [hdd] at h
          simp only at h
          obtain ⟨n, s1⟩ := p
          rcases download_data_ok ks source c nr _ true true s n s1 hdd with
            ⟨_, h0, _⟩ | ⟨_, hmin, hpos, hs1⟩
          · subst h0; simp at h
          · have hn0 : n ≠ 0 := by omega
            simp only [hn0, if_false] at h
            -- bounds on n
            have hread : n ≤ encSize - s.encryptedOffset := by
              have : min (min nr (min bufSize (encSize - s.encryptedOffset)))
                  (source.length - s.downloadOffset) ≤
                  min bufSize (encSize - s.encryptedOffset) :=
                le_trans (Nat.min_le_left _ _) (Nat.min_le_right _ _)
              omega
            -- fields of the next state
            have f1 : s1.encryptedOffset = s.encryptedOffset + n := by
              rw [hs1, dd_next_encryptedOffset, dd_start_encryptedOffset]
              simp
            have f2 : s1.downloadOffset = s.downloadOffset + n := by
              rw [hs1, dd_next_downloadOffset, dd_start_downloadOffset]
            have f3 : s1.encryptedBase = base := by
              rw [hs1, dd_next_encryptedBase, dd_start_encryptedBase, h3]
            have f4 : s1.decryptedSize = s.decryptedSize - min s.decryptedSize n := by
              rw [hs1, dd_next_decryptedSize, dd_start_decryptedSize]
              simp
            have f5 : s1.itemFileBytes = s.itemFileBytes ++
                (aes128_ctr ks (base + s.encryptedOffset)
                  ((source.drop (d0 + s.encryptedOffset)).take n)).take
                    (min s.decryptedSize n) := by
              rw [hs1, dd_next_itemFileBytes, dd_start_itemFileBytes,
                  dd_start_encryptedBase, dd_start_encryptedOffset,
                  dd_start_decryptedSize, dd_start_downloadOffset, h3, h2]
              simp
            -- re-establish the invariant at s1
            have g1 : s1.encryptedOffset ≤ encSize := by omega
            have g2 : s1.downloadOffset = d0 + s1.encryptedOffset := by omega
            have g6 : s1.decryptedSize = itemSize - min s1.encryptedOffset itemSize := by
              rw [f4, h6, f1]; omega
            have g7 : s1.itemFileBytes = pre ++
                (aes128_ctr ks base ((source.drop d0).take encSize)).take
                  (min s1.encryptedOffset itemSize) := by
              rw [f5, h7, f1, h6]
              set P := aes128_ctr ks base ((source.drop d0).take encSize) with hP
              set e := s.encryptedOffset with he
              set w := min (itemSize - min e itemSize) n with hw
              have hwn : w ≤ n := by omega
              rw [ctr_chunk ks source base d0 encSize e n w (by omega) hwn]
              rcases Nat.lt_or_ge e itemSize with hcase | hcase
              · have hmineit : min e itemSize = e := by omega
                rw [hmineit, List.append_assoc]
                congr 1
                have : min (e + n) itemSize = e + w := by omega
                rw [this, List.take_add]
              · have hw0 : w = 0 := by omega
                have : min (e + n) itemSize = min e itemSize := by omega
                rw [hw0, this]
                simp
            exact drain_item_save_spec ks source bufSize encSize itemSize d0 base
              pre rest s1 s' g1 g2 f3 h4 h5 g6 g7 h

/-- `tail_loop1` (`save=0`) advances `download_offset` exactly to the
tail offset and writes nothing. -/
theorem tail_loop1_spec (ks : Nat → Nat) (source : List Nat)
    (bufSize tailOffset : Nat) :
    ∀ (evts : List (Bool × Nat)) (s s' : DLState),
    s.downloadOffset ≤ tailOffset →
    tail_loop1 ks source bufSize tailOffset evts s = .ok (some s') →
    s'.downloadOffset = tailOffset ∧ s'.itemFileBytes = s.itemFileBytes
  | [], s, s', hle, h => by
      unfold tail_loop1 at h
      split at h
      · simp at h
      · simp only [Except.ok.injEq, Option.some.injEq] at h
        subst h
        exact ⟨by omega, rfl⟩
  | (c, nr) :: rest, s, s', hle, h => by
      unfold tail_loop1 at h
      split at h
      · rename_i hlt
        cases hdd : download_data ks source c nr
            (min bufSize (tailOffset - s.downloadOffset)) false false s with
        | error msg => rw [hdd] at h; simp at h
        | ok p =>
          rw [hdd] at h
          simp only at h
          obtain ⟨n, s1⟩ := p
          rcases download_data_ok ks source c nr _ false false s n s1 hdd with
            ⟨_, h0, _⟩ | ⟨_, hmin, hpos, hs1⟩
          · subst h0; simp at h
          · have hn0 : n ≠ 0 := by omega
            simp only [hn0, if_false] at h
            have hnb : n ≤ tailOffset - s.downloadOffset := by
              have : min (min nr (min bufSize (tailOffset - s.downloadOffset)))
                  (source.length - s.downloadOffset) ≤
                  min bufSize (tailOffset - s.downloadOffset) :=
                le_trans (Nat.min_le_left _ _) (Nat.min_le_right _ _)
              omega
            have f1 : s1.downloadOffset = s.downloadOffset + n := by
              rw [hs1, dd_next_downloadOffset, dd_start_downloadOffset]
            have f2 : s1.itemFileBytes = s.itemFileBytes := by
              rw [hs1, dd_next_itemFileBytes, dd_start_itemFileBytes]
              simp
            obtain ⟨g1, g2⟩ := tail_loop1_spec ks source bufSize tailOffset rest
              s1 s' (by omega) h
            exact ⟨g1, by rw [g2, f2]⟩
      · simp only [Except.ok.injEq, Option.some.injEq] at h
        subst h
        exact ⟨by omega, rfl⟩

/-- `tail_loop2` advances `download_offset` exactly to `total_size` and,
when saving, appends exactly the raw served bytes
`[download_offset, total_size)` to the open file. -/
theorem tail_loop2_spec (ks : Nat → Nat) (source : List Nat)
    (bufSize totalSize : Nat) (save : Bool) :
    ∀ (evts : List (Bool × Nat)) (s s' : DLState),
    s.downloadOffset ≤ totalSize →
    tail_loop2 ks source bufSize totalSize save evts s = .ok (some s') →
    s'.downloadOffset = totalSize ∧
    s'.itemFileBytes = s.itemFileBytes ++
      (if save then
        (source.drop s.downloadOffset).take (totalSize - s.downloadOffset)
      else [])
  | [], s, s', hle, h => by
      unfold tail_loop2 at h
      split at h
      · simp at h
      · rename_i hne
        simp only [ne_eq, not_not] at hne
        simp only [Except.ok.injEq, Option.some.injEq] at h
        subst h
        constructor
        · omega
        · rw [hne]
          simp
  | (c, nr) :: rest, s, s', hle, h => by
      unfold tail_loop2 at h
      split at h
      · rename_i hne
        cases hdd : download_data ks source c nr
            (min bufSize (totalSize - s.downloadOffset)) false save s with
        | error msg => rw [hdd] at h; simp at h
        | ok p =>
          rw [hdd] at h
          simp only at h
          obtain ⟨n, s1⟩ := p
          rcases download_data_ok ks source c nr _ false save s n s1 hdd with
            ⟨_, h0, _⟩ | ⟨_, hmin, hpos, hs1⟩
          · subst h0; simp at h
          · have hn0 : n ≠ 0 := by omega
            simp only [hn0, if_false] at h
            have hnb : n ≤ totalSize - s.downloadOffset := by
              have : min (min nr (min bufSize (totalSize - s.downloadOffset)))
                  (source.length - s.downloadOffset) ≤
                  min bufSize (totalSize - s.downloadOffset) :=
                le_trans (Nat.min_le_left _ _) (Nat.min_le_right _ _)
              omega
            have f1 : s1.downloadOffset = s.downloadOffset + n := by
              rw [hs1, dd_next_downloadOffset, dd_start_downloadOffset]
            have f2 : s1.itemFileBytes = s.itemFileBytes ++
                (if save then (source.drop s.downloadOffset).take n else []) := by
              rw [hs1, dd_next_itemFileBytes, dd_start_itemFileBytes,
                  dd_start_downloadOffset]
              cases save <;> simp [List.take_take]
            obtain ⟨g1, g2⟩ := tail_loop2_spec ks source bufSize totalSize save
              rest s1 s' (by omega) h
            refine ⟨g1, ?_⟩
            rw [g2, f2, f1]
            cases save
            · simp
            · simp only [if_true, List.append_assoc]
              congr 1
              have hdd2 : (source.drop s.downloadOffset).drop n =
                  source.drop (s.downloadOffset + n) := by
                rw [List.drop_drop]
              rw [← hdd2, ← List.take_add]
              congr 1
              omega
      · rename_i hne
        simp only [ne_eq, not_not] at hne
        simp only [Except.ok.injEq, Option.some.injEq] at h
        subst h
        constructor
        · omega
        · rw [hne]
          simp

/-! ## Claim theorems -/

/-- C1: every successful `download_data` call feeds all `n > 0` bytes
returned by the HTTP read into the running SHA-256 context exactly once,
in arrival order, regardless of the `encrypted` and `save` flags; and
across a full session started by `pkgi_download`, the bytes hashed are
exactly the raw byte stream the HTTP source served, so the finalised
SHA-256 equals the SHA-256 of that stream. -/
theorem sha_sees_every_byte_once :
    (∀ (ks : Nat → Nat) (source : List Nat) (c : Bool) (nr sz : Nat)
       (e sv : Bool) (s : DLState) (n : Nat) (s' : DLState),
       download_data ks source c nr sz e sv s = .ok (n, s') → 0 < n →
       s'.shaBytes = s.shaBytes ++ (source.drop s.downloadOffset).take n ∧
       ((source.drop s.downloadOffset).take n).length = n) ∧
    (∀ (ks : Nat → Nat) (source : List Nat) (c : Bool) (nr sz : Nat)
       (e₁ sv₁ e₂ sv₂ : Bool) (s : DLState) (n₁ n₂ : Nat) (s₁ s₂ : DLState),
       download_data ks source c nr sz e₁ sv₁ s = .ok (n₁, s₁) →
       download_data ks source c nr sz e₂ sv₂ s = .ok (n₂, s₂) →
       n₁ = n₂ ∧ s₁.shaBytes = s₂.shaBytes) ∧
    (∀ (ks : Nat → Nat) (source : List Nat)
       (evts : List (Bool × Nat × Nat × Bool × Bool)) (s0 s' : DLState),
       run_downloads ks source evts (pkgi_download_init s0) = .ok s' →
       s'.shaBytes = source.take s'.downloadOffset ∧
       (s'.downloadOffset = source.length → s'.shaBytes = source)) := by
  refine ⟨?_, ?_, ?_⟩
  · intro ks source c nr sz e sv s n s' h hn
    rcases download_data_ok ks source c nr sz e sv s n s' h with
      ⟨_, h0, _⟩ | ⟨_, hmin, _, hs⟩
    · omega
    · constructor
      · rw [hs, dd_next_shaBytes, dd_start_shaBytes, dd_start_downloadOffset]
      · have hle : n ≤ source.length - s.downloadOffset :=
          hmin ▸ Nat.min_le_right _ _
        rw [List.length_take, List.length_drop]
        exact Nat.min_eq_left hle
  · intro ks source c nr sz e₁ sv₁ e₂ sv₂ s n₁ n₂ s₁ s₂ h₁ h₂
    rcases download_data_ok ks source c nr sz e₁ sv₁ s n₁ s₁ h₁ with
      ⟨hc, h0, hs⟩ | ⟨hc, hmin, hpos, hs⟩ <;>
    rcases download_data_ok ks source c nr sz e₂ sv₂ s n₂ s₂ h₂ with
      ⟨hc', h0', hs'⟩ | ⟨hc', hmin', hpos', hs'⟩
    · exact ⟨h0.trans h0'.symm, by rw [hs, hs']⟩
    · rw [hc] at hc'; cases hc'
    · rw [hc'] at hc; cases hc
    · refine ⟨hmin.trans hmin'.symm, ?_⟩
      rw [hs, hs', dd_next_shaBytes, dd_next_shaBytes, hmin, hmin']
  · intro ks source evts s0 s' h
    have hinit : (pkgi_download_init s0).shaBytes =
        source.take (pkgi_download_init s0).downloadOffset := by
      simp [pkgi_download_init]
    have hle : (pkgi_download_init s0).downloadOffset ≤ source.length := by
      simp [pkgi_download_init]
    obtain ⟨hsha, hlen⟩ := run_downloads_sha ks source evts _ s' hinit hle h
    exact ⟨hsha, fun he => by rw [hsha, he, List.take_length]⟩

/-- Witness for C1 at a concrete run: a three-byte source fully consumed
by two calls (one encrypted+saved, one plain) hashes exactly the served
stream. -/
theorem sha_sees_every_byte_once_witness :
    (⟨true, some 0, 3, 3, [1, 2, 3], 0, 2, 0, []⟩ : DLState).shaBytes =
      List.take (⟨true, some 0, 3, 3, [1, 2, 3], 0, 2, 0, []⟩ : DLState).downloadOffset
        [1, 2, 3] :=
  (sha_sees_every_byte_once.2.2 (fun _ => 0) [1, 2, 3]
    [(false, 2, 2, true, true), (false, 5, 5, false, false)]
    ⟨false, none, 100, 0, [], 0, 0, 0, []⟩
    ⟨true, some 0, 3, 3, [1, 2, 3], 0, 2, 0, []⟩ rfl).1

/-- C2: the package key is selected by `head[0xE7] & 7`: key type 1 gives
the fixed constant `pkg_psp_key`; key types 2, 3, 4 give the AES-128-ECB
encryption of the header IV under `pkg_vita_2`, `pkg_vita_3`,
`pkg_vita_4` respectively; every other masked value (0, 5, 6, 7 — and the
mask takes no other values) raises the "invalid key type"
`DownloadError`. -/
theorem key_type_dispatch (aesEnc : List Nat → List Nat → List Nat)
    (b : Nat) (iv : List Nat) :
    (b &&& 7 = 1 → derive_key aesEnc b iv = .ok pkg_psp_key) ∧
    (b &&& 7 = 2 → derive_key aesEnc b iv = .ok (aesEnc pkg_vita_2 iv)) ∧
    (b &&& 7 = 3 → derive_key aesEnc b iv = .ok (aesEnc pkg_vita_3 iv)) ∧
    (b &&& 7 = 4 → derive_key aesEnc b iv = .ok (aesEnc pkg_vita_4 iv)) ∧
    ((b &&& 7 = 0 ∨ b &&& 7 = 5 ∨ b &&& 7 = 6 ∨ b &&& 7 = 7) →
      derive_key aesEnc b iv = .error ("無效的秘鑰類型 " ++ toString (b &&& 7))) ∧
    (b &&& 7 = 0 ∨ b &&& 7 = 1 ∨ b &&& 7 = 2 ∨ b &&& 7 = 3 ∨
     b &&& 7 = 4 ∨ b &&& 7 = 5 ∨ b &&& 7 = 6 ∨ b &&& 7 = 7) := by
  refine ⟨fun h => by simp [derive_key, h], fun h => by simp [derive_key, h],
          fun h => by simp [derive_key, h], fun h => by simp [derive_key, h],
          fun h => ?_, ?_⟩
  · rcases h with h | h | h | h <;> simp [derive_key, h]
  · have h7 : b &&& 7 ≤ 7 := Nat.and_le_right
    omega

/-- Witness for C2: byte `0xE2` has key type 2 and yields the encryption
of the IV under `pkg_vita_2`; byte `0xE7` has key type 7 and is
rejected. -/
theorem key_type_dispatch_witness :
    derive_key (fun k _ => k) 0xE2 [0] = .ok (pkg_vita_2) ∧
    derive_key (fun k _ => k) 0xE7 [0] = .error ("無效的秘鑰類型 " ++ toString 7) := by
  constructor
  · exact (key_type_dispatch (fun k _ => k) 0xE2 [0]).2.1 (by decide)
  · exact (key_type_dispatch (fun k _ => k) 0xE7 [0]).2.2.2.2.1 (by decide)

/-- C4: in a `download_data` call with `encrypted=1, save=1` reading
`n > 0` bytes, exactly `min(n, decrypted_size)` bytes are written to
`item_file` and `decrypted_size` is decremented by exactly the number of
bytes written, not by the number read; consequently a completed item
drain (initial `decrypted_size = item_size`, `encrypted_offset = 0`)
writes exactly the first `item_size` bytes of the decrypted item — the
AES block padding of the final block is stripped. -/
theorem decrypted_size_strips_padding :
    (∀ (ks : Nat → Nat) (source : List Nat) (c : Bool) (nr sz : Nat)
       (s : DLState) (n : Nat) (s' : DLState),
       download_data ks source c nr sz true true s = .ok (n, s') → 0 < n →
       s'.itemFileBytes.length = s.itemFileBytes.length + min n s.decryptedSize ∧
       s'.decryptedSize = s.decryptedSize - min n s.decryptedSize) ∧
    (∀ (ks : Nat → Nat) (source : List Nat) (bufSize itemSize d0 base : Nat)
       (evts : List (Bool × Nat)) (s s' : DLState),
       s.encryptedOffset = 0 →
       s.downloadOffset = d0 →
       s.encryptedBase = base →
       s.decryptedSize = itemSize →
       s.itemFileBytes = [] →
       d0 + pkg_encrypted_size itemSize ≤ source.length →
       drain_item ks source bufSize (pkg_encrypted_size itemSize) true evts s =
         .ok (some s') →
       s'.itemFileBytes =
         (aes128_ctr ks base
           ((source.drop d0).take (pkg_encrypted_size itemSize))).take itemSize ∧
       s'.decryptedSize = 0) := by
  constructor
  · intro ks source c nr sz s n s' h hn
    rcases download_data_ok ks source c nr sz true true s n s' h with
      ⟨_, h0, _⟩ | ⟨_, hmin, _, hs⟩
    · omega
    · have havail : n ≤ source.length - s.downloadOffset :=
        hmin ▸ Nat.min_le_right _ _
      constructor
      · rw [hs, dd_next_itemFileBytes, dd_start_itemFileBytes,
            dd_start_encryptedBase, dd_start_encryptedOffset,
            dd_start_decryptedSize, dd_start_downloadOffset]
        simp only [if_true, List.length_append]
        rw [List.length_take, aes128_ctr_length, List.length_take,
            List.length_drop]
        omega
      · rw [hs, dd_next_decryptedSize, dd_start_decryptedSize]
        simp only [if_true, true_and]
        omega
  · intro ks source bufSize itemSize d0 base evts s s' h1 h2 h3 h4 h5 h6 h
    have hsize : itemSize ≤ pkg_encrypted_size itemSize := by
      unfold pkg_encrypted_size; omega
    have := drain_item_save_spec ks source bufSize (pkg_encrypted_size itemSize)
      itemSize d0 base [] evts s s'
      (by omega) (by omega) h3 h6 hsize
      (by rw [h4, h1]; simp) (by rw [h5, h1]; simp) h
    exact ⟨by rw [this.2.2.2]; simp, by rw [this.2.2.1]; omega⟩

/-- Witness for C4: a one-byte item (`encrypted_size = 16`) drained from
a 16-byte all-zero source under the constant-1 keystream writes exactly
one byte, the first byte of the decrypted block. -/
theorem decrypted_size_strips_padding_witness :
    (⟨true, none, 16, 0, [0, 0, 0, 0, 0, 0, 0, 0, 0, 0, 0, 0, 0, 0, 0, 0],
        0, 16, 0, [1]⟩ : DLState).itemFileBytes =
      (aes128_ctr (fun _ => 1) 0
        ((([0, 0, 0, 0, 0, 0, 0, 0, 0, 0, 0, 0, 0, 0, 0, 0] : List Nat).drop 0).take
          (pkg_encrypted_size 1))).take 1 :=
  (decrypted_size_strips_padding.2 (fun _ => 1)
    [0, 0, 0, 0, 0, 0, 0, 0, 0, 0, 0, 0, 0, 0, 0, 0] 32 1 0 0 [(false, 16)]
    ⟨true, none, 0, 0, [], 0, 0, 1, []⟩
    ⟨true, none, 16, 0, [0, 0, 0, 0, 0, 0, 0, 0, 0, 0, 0, 0, 0, 0, 0, 0],
        0, 16, 0, [1]⟩
    rfl rfl rfl rfl rfl (by decide) rfl).1

/-- C3 counterexample: an index entry for a regular file whose
`item_offset` disagrees with the on-wire position makes `download_files`
raise the "file ordering" `DownloadError`, but only *after*
`create_file()` has run, so the entry's output file HAS been created
(empty) — refuting the claim that no output file is created for that
entry. -/
theorem file_ordering_no_file_counterexample :
    processEntry 255 21 0 1000 999 "root" ⟨0, "x.bin", 0, 16, 3⟩ =
      .fatal ("pkg文件不被支援, 文件順序錯誤, 期望的: " ++ toString (0 + 0 + 0) ++
        ", 實際的: " ++ toString 999) ["root/x.bin"] ∧
    (["root/x.bin"] : List String) ≠ [] := by
  constructor
  · decide
  · decide

/-- C3 (amended): every regular-file index entry (neither a directory
nor a type-18 entry) that reaches file creation — every regular file
when the content type is not 6, and the two materialised names
`USRDIR/CONTENT/DOCUMENT.DAT` / `USRDIR/CONTENT/EBOOT.PBP` when it is
6 — fails with the "file ordering" error when
`enc_offset + item_offset + encrypted_offset` differs from
`download_offset`, before any byte of the entry is drained; the entry's
output file has already been created (empty) at that point.  A
content-type-6 entry with any other name never reaches the ordering
check at all: it is drained with `save=0`, mismatch or not. -/
theorem file_ordering_error_after_create :
    (∀ (nameCap contentType encOffset totalSize downloadOffset : Nat)
       (root : String) (e : PkgItem),
       e.name.length ≤ nameCap →
       encOffset + e.nameOffset + e.name.length ≤ totalSize →
       contentType ≠ 6 →
       e.typ ≠ 4 → e.typ ≠ 18 →
       encOffset + e.itemOffset + 0 ≠ downloadOffset →
       processEntry nameCap contentType encOffset totalSize downloadOffset root e =
         .fatal ("pkg文件不被支援, 文件順序錯誤, 期望的: " ++
             toString (encOffset + e.itemOffset + 0) ++
             ", 實際的: " ++ toString downloadOffset)
           [root ++ "/" ++ e.name]) ∧
    (∀ (nameCap encOffset totalSize downloadOffset : Nat)
       (root : String) (e : PkgItem),
       e.name.length ≤ nameCap →
       encOffset + e.nameOffset + e.name.length ≤ totalSize →
       e.name = "USRDIR/CONTENT/DOCUMENT.DAT" →
       e.typ ≠ 4 → e.typ ≠ 18 →
       encOffset + e.itemOffset + 0 ≠ downloadOffset →
       processEntry nameCap 6 encOffset totalSize downloadOffset root e =
         .fatal ("pkg文件不被支援, 文件順序錯誤, 期望的: " ++
             toString (encOffset + e.itemOffset + 0) ++
             ", 實際的: " ++ toString downloadOffset)
           [root ++ "/DOCUMENT.DAT"]) ∧
    (∀ (nameCap encOffset totalSize downloadOffset : Nat)
       (root : String) (e : PkgItem),
       e.name.length ≤ nameCap →
       encOffset + e.nameOffset + e.name.length ≤ totalSize →
       e.name = "USRDIR/CONTENT/EBOOT.PBP" →
       e.typ ≠ 4 → e.typ ≠ 18 →
       encOffset + e.itemOffset + 0 ≠ downloadOffset →
       processEntry nameCap 6 encOffset totalSize downloadOffset root e =
         .fatal ("pkg文件不被支援, 文件順序錯誤, 期望的: " ++
             toString (encOffset + e.itemOffset + 0) ++
             ", 實際的: " ++ toString downloadOffset)
           [root ++ "/EBOOT.PBP"]) ∧
    (∀ (nameCap encOffset totalSize downloadOffset : Nat)
       (root : String) (e : PkgItem),
       e.name.length ≤ nameCap →
       encOffset + e.nameOffset + e.name.length ≤ totalSize →
       e.name ≠ "USRDIR/CONTENT/DOCUMENT.DAT" →
       e.name ≠ "USRDIR/CONTENT/EBOOT.PBP" →
       processEntry nameCap 6 encOffset totalSize downloadOffset root e =
         .drain none (pkg_encrypted_size e.itemSize) true false) := by
  refine ⟨?_, ?_, ?_, ?_⟩
  · intro nameCap contentType encOffset totalSize downloadOffset root e
      hn1 hn2 hct ht4 ht18 hmis
    unfold processEntry
    have hb : ¬(e.name.length > nameCap ∨
        encOffset + e.nameOffset + e.name.length > totalSize) := by omega
    have hmis2 : encOffset + e.itemOffset ≠ downloadOffset := by omega
    simp [hb, hct, ht4, ht18, hmis2]
  · intro nameCap encOffset totalSize downloadOffset root e
      hn1 hn2 hd ht4 ht18 hmis
    unfold processEntry
    rw [hd]
    have h1 : ¬("USRDIR/CONTENT/DOCUMENT.DAT".length > nameCap ∨
        encOffset + e.nameOffset + "USRDIR/CONTENT/DOCUMENT.DAT".length >
          totalSize) := by
      rw [← hd]; omega
    have hmis2 : encOffset + e.itemOffset ≠ downloadOffset := by omega
    simp [h1, ht4, ht18, hmis2]
  · intro nameCap encOffset totalSize downloadOffset root e
      hn1 hn2 he ht4 ht18 hmis
    unfold processEntry
    rw [he]
    have h1 : ¬("USRDIR/CONTENT/EBOOT.PBP".length > nameCap ∨
        encOffset + e.nameOffset + "USRDIR/CONTENT/EBOOT.PBP".length >
          totalSize) := by
      rw [← he]; omega
    have hmis2 : encOffset + e.itemOffset ≠ downloadOffset := by omega
    simp [h1, ht4, ht18, hmis2]
  · intro nameCap encOffset totalSize downloadOffset root e hn1 hn2 hd he
    unfold processEntry
    have hb : ¬(e.name.length > nameCap ∨
        encOffset + e.nameOffset + e.name.length > totalSize) := by omega
    simp [hb, hd, he]

/-- Witness for C3 (amended): a content-type-6 `DOCUMENT.DAT` entry with
a mismatched `item_offset` also raises the ordering error with its
output file `root/DOCUMENT.DAT` already created, and a content-type-6
junk-name entry is drained without ever reaching the ordering check. -/
theorem file_ordering_error_after_create_witness :
    (processEntry 255 6 0 1000 999 "root"
        ⟨0, "USRDIR/CONTENT/DOCUMENT.DAT", 0, 16, 3⟩ =
      .fatal ("pkg文件不被支援, 文件順序錯誤, 期望的: " ++ toString (0 + 0 + 0) ++
        ", 實際的: " ++ toString 999) ["root" ++ "/DOCUMENT.DAT"]) ∧
    (processEntry 255 6 0 1000 999 "root"
        ⟨0, "USRDIR/CONTENT/JUNK.BIN", 0, 16, 3⟩ =
      .drain none (pkg_encrypted_size 16) true false) :=
  ⟨file_ordering_error_after_create.2.1 255 0 1000 999 "root"
    ⟨0, "USRDIR/CONTENT/DOCUMENT.DAT", 0, 16, 3⟩
    (by decide) (by decide) rfl (by decide) (by decide) (by decide),
   file_ordering_error_after_create.2.2.2 255 0 1000 999 "root"
    ⟨0, "USRDIR/CONTENT/JUNK.BIN", 0, 16, 3⟩
    (by decide) (by decide) (by decide) (by decide)⟩

/-- C5: with `content_type = 6`, `download_files` materialises exactly
two names — `USRDIR/CONTENT/DOCUMENT.DAT` into `root/DOCUMENT.DAT` and
`USRDIR/CONTENT/EBOOT.PBP` into `root/EBOOT.PBP` (for regular-file
entries passing the integrity checks, drained with `encrypted=1,
save=1`); every other entry is drained for its full `encrypted_size`
bytes through `download_data` with `encrypted=1, save=0` — and a
`save=0` call never writes a byte to any file. -/
theorem content_type6_routing :
    (∀ (nameCap encOffset totalSize downloadOffset : Nat) (root : String)
       (it : PkgItem),
       it.name.length ≤ nameCap →
       encOffset + it.nameOffset + it.name.length ≤ totalSize →
       it.name ≠ "USRDIR/CONTENT/DOCUMENT.DAT" →
       it.name ≠ "USRDIR/CONTENT/EBOOT.PBP" →
       processEntry nameCap 6 encOffset totalSize downloadOffset root it =
         .drain none (pkg_encrypted_size it.itemSize) true false) ∧
    (∀ (nameCap encOffset totalSize downloadOffset : Nat) (root : String)
       (it : PkgItem),
       it.name.length ≤ nameCap →
       encOffset + it.nameOffset + it.name.length ≤ totalSize →
       it.name = "USRDIR/CONTENT/DOCUMENT.DAT" →
       it.typ ≠ 4 → it.typ ≠ 18 →
       encOffset + it.itemOffset + 0 = downloadOffset →
       encOffset + it.itemOffset + it.itemSize ≤ totalSize →
       processEntry nameCap 6 encOffset totalSize downloadOffset root it =
         .drain (some (root ++ "/DOCUMENT.DAT")) (pkg_encrypted_size it.itemSize)
           true true) ∧
    (∀ (nameCap encOffset totalSize downloadOffset : Nat) (root : String)
       (it : PkgItem),
       it.name.length ≤ nameCap →
       encOffset + it.nameOffset + it.name.length ≤ totalSize →
       it.name = "USRDIR/CONTENT/EBOOT.PBP" →
       it.typ ≠ 4 → it.typ ≠ 18 →
       encOffset + it.itemOffset + 0 = downloadOffset →
       encOffset + it.itemOffset + it.itemSize ≤ totalSize →
       processEntry nameCap 6 encOffset totalSize downloadOffset root it =
         .drain (some (root ++ "/EBOOT.PBP")) (pkg_encrypted_size it.itemSize)
           true true) ∧
    (∀ (ks : Nat → Nat) (source : List Nat) (c : Bool) (nr sz : Nat)
       (enc : Bool) (s : DLState) (n : Nat) (s' : DLState),
       download_data ks source c nr sz enc false s = .ok (n, s') →
       s'.itemFileBytes = s.itemFileBytes) := by
  refine ⟨?_, ?_, ?_, ?_⟩
  · intro nameCap encOffset totalSize downloadOffset root it hn1 hn2 hd he
    unfold processEntry
    have hb : ¬(it.name.length > nameCap ∨
        encOffset + it.nameOffset + it.name.length > totalSize) := by omega
    simp [hb, hd, he]
  · intro nameCap encOffset totalSize downloadOffset root it hn1 hn2 hd ht4 ht18
      hord hsz
    unfold processEntry
    rw [hd]
    have h1 : ¬("USRDIR/CONTENT/DOCUMENT.DAT".length > nameCap ∨
        encOffset + it.nameOffset + "USRDIR/CONTENT/DOCUMENT.DAT".length >
          totalSize) := by
      rw [← hd]; omega
    have h2 : ¬(encOffset + it.itemOffset + it.itemSize > totalSize) := by omega
    have h3 : encOffset + it.itemOffset = downloadOffset := by omega
    simp [h1, h2, h3, ht4, ht18]
    omega
  · intro nameCap encOffset totalSize downloadOffset root it hn1 hn2 he ht4 ht18
      hord hsz
    unfold processEntry
    rw [he]
    have h1 : ¬("USRDIR/CONTENT/EBOOT.PBP".length > nameCap ∨
        encOffset + it.nameOffset + "USRDIR/CONTENT/EBOOT.PBP".length >
          totalSize) := by
      rw [← he]; omega
    have h2 : ¬(encOffset + it.itemOffset + it.itemSize > totalSize) := by omega
    have h3 : encOffset + it.itemOffset = downloadOffset := by omega
    simp [h1, h2, h3, ht4, ht18]
    omega
  · intro ks source c nr sz enc s n s' h
    rcases download_data_ok ks source c nr sz enc false s n s' h with
      ⟨_, _, hs⟩ | ⟨_, _, _, hs⟩
    · rw [hs]
    · rw [hs, dd_next_itemFileBytes, dd_start_itemFileBytes]
      simp

/-- Witness for C5: a junk name under content type 6 is drained and
discarded. -/
theorem content_type6_routing_witness :
    processEntry 255 6 0 1000 0 "root" ⟨0, "USRDIR/CONTENT/JUNK.BIN", 0, 17, 3⟩ =
      .drain none (pkg_encrypted_size 17) true false :=
  content_type6_routing.1 255 0 1000 0 "root"
    ⟨0, "USRDIR/CONTENT/JUNK.BIN", 0, 17, 3⟩
    (by decide) (by decide) (by decide) (by decide)

/-- C6 counterexample: a session whose previously persisted
`download_offset` is 100 does NOT open its first HTTP request at offset
100: `pkgi_download` resets `download_offset = 0` before the first
`download_data`, which therefore opens the stream at byte 0. -/
theorem resume_offset_counterexample :
    started_at (download_data (fun _ => 0) [7, 8, 9] false 1 1 false false
      (pkgi_download_init ⟨false, none, 100, 0, [], 0, 0, 0, []⟩)) = some 0 ∧
    some (0 : Nat) ≠ some 100 := by
  exact ⟨rfl, by decide⟩

/-- C6 (amended): the first `download_data` call of a session opens the
HTTP stream lazily at the current `download_offset`; but `pkgi_download`
resets `download_offset` to 0 on entry, so for every session started by
`pkgi_download` the first HTTP request begins at byte 0, regardless of
any previously persisted (possibly nonzero) offset. -/
theorem first_request_at_zero (ks : Nat → Nat) (source : List Nat) (c : Bool)
    (nr sz : Nat) (e sv : Bool) (p : DLState) (n : Nat) (s' : DLState)
    (h : download_data ks source c nr sz e sv (pkgi_download_init p) = .ok (n, s'))
    (hn : 0 < n) :
    s'.httpStartedAt = some 0 ∧ (pkgi_download_init p).downloadOffset = 0 := by
  rcases download_data_ok ks source c nr sz e sv (pkgi_download_init p) n s' h with
    ⟨_, h0, _⟩ | ⟨_, _, _, hs⟩
  · omega
  · constructor
    · rw [hs, dd_next_httpStartedAt, dd_start_httpStartedAt]
      simp [pkgi_download_init]
    · simp [pkgi_download_init]

/-- Witness for C6 (amended): the concrete resumed session of the
counterexample does start at byte 0. -/
theorem first_request_at_zero_witness :
    (⟨true, some 0, 1, 3, [7], 0, 0, 0, []⟩ : DLState).httpStartedAt = some 0 :=
  (first_request_at_zero (fun _ => 0) [7, 8, 9] false 1 1 false false
    ⟨false, none, 100, 0, [], 0, 0, 0, []⟩ 1
    ⟨true, some 0, 1, 3, [7], 0, 0, 0, []⟩ rfl (by decide)).1

/-- C7 counterexample: for a content-type-6 package, `download_tail`
still creates `root/sce_sys/package/tail.bin` (it calls `create_file()`
before checking the content type), so `tail.bin` appears in the staging
directory even when `content_type = 6` — refuting "tail.bin appears in
the staging directory only for non-content_type-6 packages". -/
theorem tail_bin_created_for_ct6_counterexample :
    "r/sce_sys/package/tail.bin" ∈ tail_created
      (download_tail (fun _ => 0) [1, 2, 3, 4] 16 6 0 2 4 "r" []
        [(false, 4)] ⟨true, none, 2, 4, [1, 2], 0, 0, 0, []⟩ []) := by
  decide

/-- C7 (amended): `download_tail` creates `root/sce_sys/package/tail.bin`
for every content type; the bytes from `enc_offset + enc_size` up to
`total_size` are drained through `download_data` with `encrypted=0`; for
content type 6 none of them is written (`tail.bin` stays empty), while
for every other content type exactly those bytes are streamed into
`tail.bin`. -/
theorem download_tail_spec (ks : Nat → Nat) (source : List Nat) (bufSize : Nat)
    (ct encOffset encSize totalSize : Nat) (root : String)
    (evts1 evts2 : List (Bool × Nat)) (s : DLState) (created : List String)
    (s' : DLState) (created' : List String)
    (hle1 : s.downloadOffset ≤ encOffset + encSize)
    (hle2 : encOffset + encSize ≤ totalSize)
    (h : download_tail ks source bufSize ct encOffset encSize totalSize root
      evts1 evts2 s created = .ok (some (s', created'))) :
    created' = (root ++ "/sce_sys/package/tail.bin") :: created ∧
    s'.downloadOffset = totalSize ∧
    (ct = 6 → s'.itemFileBytes = []) ∧
    (ct ≠ 6 → s'.itemFileBytes =
      (source.drop (encOffset + encSize)).take
        (totalSize - (encOffset + encSize))) := by
  unfold download_tail at h
  cases h1 : tail_loop1 ks source bufSize (encOffset + encSize) evts1
      { s with itemFileBytes := [] } with
  | error msg => simp only [h1] at h; simp at h
  | ok o1 =>
    simp only [h1] at h
    cases o1 with
    | none => simp at h
    | some s1 =>
      cases h2 : tail_loop2 ks source bufSize totalSize (ct != 6) evts2 s1 with
      | error msg => simp only [h2] at h; simp at h
      | ok o2 =>
        simp only [h2] at h
        cases o2 with
        | none => simp at h
        | some s2 =>
          simp only [Except.ok.injEq, Option.some.injEq, Prod.mk.injEq] at h
          obtain ⟨hs2, hcr⟩ := h
          subst hs2
          obtain ⟨g1, g2⟩ := tail_loop1_spec ks source bufSize
            (encOffset + encSize) evts1 { s with itemFileBytes := [] } s1
            (by simpa using hle1) h1
          obtain ⟨k1, k2⟩ := tail_loop2_spec ks source bufSize totalSize
            (ct != 6) evts2 s1 s2 (by omega) h2
          refine ⟨hcr.symm, k1, ?_, ?_⟩
          · intro h6
            rw [k2, g2, g1]
            simp [h6]
          · intro h6
            rw [k2, g2, g1]
            simp only [List.nil_append]
            have : (ct != 6) = true := by simp [h6]
            rw [this]
            simp

/-- Witness for C7 (amended): a non-content-type-6 run streams exactly
the tail bytes into `tail.bin`. -/
theorem download_tail_spec_witness :
    (⟨true, none, 4, 4, [1, 2, 3, 4], 0, 0, 0, [3, 4]⟩ : DLState).itemFileBytes =
      (([1, 2, 3, 4] : List Nat).drop (0 + 2)).take (4 - (0 + 2)) :=
  (download_tail_spec (fun _ => 0) [1, 2, 3, 4] 16 21 0 2 4 "r" []
    [(false, 4)] ⟨true, none, 2, 4, [1, 2], 0, 0, 0, []⟩ []
    ⟨true, none, 4, 4, [1, 2, 3, 4], 0, 0, 0, [3, 4]⟩
    ["r/sce_sys/package/tail.bin"] (by decide) (by decide) rfl).2.2.2 (by decide)

/-- C8: `check_integrity` succeeds without finalising the hash when no
digest is supplied; with a digest it finalises the SHA-256 and fails
exactly when the result differs from the expected digest, in which case
`root/sce_sys/package/head.bin` is deleted while every other previously
written file is left intact. -/
theorem check_integrity_spec (shaF : List Nat → List Nat) (root : String)
    (s : DLState) (files : List String) :
    (check_integrity shaF none root s files = .ok (files, false)) ∧
    (∀ d, d = shaF s.shaBytes →
      check_integrity shaF (some d) root s files = .ok (files, true)) ∧
    (∀ d, d ≠ shaF s.shaBytes →
      check_integrity shaF (some d) root s files =
        .error ("pkg完整性效驗錯誤, 請嘗試重新下載",
          pkgi_rm files (root ++ "/sce_sys/package/head.bin")) ∧
      (root ++ "/sce_sys/package/head.bin") ∉
        pkgi_rm files (root ++ "/sce_sys/package/head.bin") ∧
      (∀ f ∈ files, f ≠ root ++ "/sce_sys/package/head.bin" →
        f ∈ pkgi_rm files (root ++ "/sce_sys/package/head.bin"))) := by
  refine ⟨rfl, ?_, ?_⟩
  · intro d hd
    simp [check_integrity, pkgi_memequ, hd]
  · intro d hd
    refine ⟨by simp [check_integrity, pkgi_memequ, hd], ?_, ?_⟩
    · simp [pkgi_rm]
    · intro f hf hne
      simp [pkgi_rm, hf, hne]

/-- Witness for C8: a one-bit-off digest triggers the error and deletes
exactly `head.bin` while `r/a.bin` survives. -/
theorem check_integrity_spec_witness :
    check_integrity (fun l => l) (some [2]) "r"
        ⟨true, none, 1, 1, [1], 0, 0, 0, []⟩
        ["r/sce_sys/package/head.bin", "r/a.bin"] =
      .error ("pkg完整性效驗錯誤, 請嘗試重新下載",
        pkgi_rm ["r/sce_sys/package/head.bin", "r/a.bin"]
          ("r" ++ "/sce_sys/package/head.bin")) :=
  ((check_integrity_spec (fun l => l) "r" ⟨true, none, 1, 1, [1], 0, 0, 0, []⟩
    ["r/sce_sys/package/head.bin", "r/a.bin"]).2.2 [2] (by decide)).1

/-- C9: `pkgi_install_update` extracts the 9-character title id at index
7 of the content id, deletes any existing `ux0:patch/<titleid>`, renames
the staged directory there, reads `APP_VER` from the renamed directory's
`sce_sys/param.sfo`, errors unless that version has length exactly 5, and
otherwise updates exactly the shell-database rows with
`titleId = <titleid>` and `key = 3168212510` to that version, leaving all
other rows unchanged. -/
theorem install_update_spec (contentid : String) (sfoAppVer : String → String)
    (fs : VitaFS) (db : List DbRow) :
    ((sfoAppVer ("ux0:patch/" ++ (contentid.drop 7).take 9 ++
        "/sce_sys/param.sfo")).length ≠ 5 →
      ∀ res, pkgi_install_update contentid sfoAppVer fs db ≠ .ok res) ∧
    ((sfoAppVer ("ux0:patch/" ++ (contentid.drop 7).take 9 ++
        "/sce_sys/param.sfo")).length = 5 →
      ("ux0:pkgj/" ++ contentid) ∈
        (pkgi_delete_dir fs ("ux0:patch/" ++ (contentid.drop 7).take 9)).dirs →
      pkgi_install_update contentid sfoAppVer fs db =
        .ok (⟨(pkgi_delete_dir fs
                ("ux0:patch/" ++ (contentid.drop 7).take 9)).dirs.map
                (fun d => if d = "ux0:pkgj/" ++ contentid
                  then "ux0:patch/" ++ (contentid.drop 7).take 9 else d)⟩,
             db_update_version db ((contentid.drop 7).take 9)
               (sfoAppVer ("ux0:patch/" ++ (contentid.drop 7).take 9 ++
                 "/sce_sys/param.sfo")))) ∧
    (∀ (v : String) (r : DbRow), r ∈ db →
      r.titleId = (contentid.drop 7).take 9 → r.key = 3168212510 →
      (⟨r.titleId, r.key, v⟩ : DbRow) ∈
        db_update_version db ((contentid.drop 7).take 9) v) ∧
    (∀ (v : String) (r : DbRow), r ∈ db →
      (r.titleId ≠ (contentid.drop 7).take 9 ∨ r.key ≠ 3168212510) →
      r ∈ db_update_version db ((contentid.drop 7).take 9) v) := by
  refine ⟨?_, ?_, ?_, ?_⟩
  · intro hlen res
    unfold pkgi_install_update
    cases hr : vita_rename
        (pkgi_delete_dir fs ("ux0:patch/" ++ (contentid.drop 7).take 9))
        ("ux0:pkgj/" ++ contentid)
        ("ux0:patch/" ++ (contentid.drop 7).take 9) with
    | error msg => simp [hr]
    | ok fs2 =>
      simp only [hr]
      by_cases hve : sfoAppVer ("ux0:patch/" ++ (contentid.drop 7).take 9 ++
          "/sce_sys/param.sfo") = ""
      · simp [hve]
      · simp [hve, hlen]
  · intro hlen hmem
    unfold pkgi_install_update
    have hr : vita_rename
        (pkgi_delete_dir fs ("ux0:patch/" ++ (contentid.drop 7).take 9))
        ("ux0:pkgj/" ++ contentid)
        ("ux0:patch/" ++ (contentid.drop 7).take 9) =
        .ok ⟨(pkgi_delete_dir fs
            ("ux0:patch/" ++ (contentid.drop 7).take 9)).dirs.map
            (fun d => if d = "ux0:pkgj/" ++ contentid
              then "ux0:patch/" ++ (contentid.drop 7).take 9 else d)⟩ := by
      simp [vita_rename, hmem]
    have hne : sfoAppVer ("ux0:patch/" ++ (contentid.drop 7).take 9 ++
        "/sce_sys/param.sfo") ≠ "" := by
      intro he
      rw [he] at hlen
      simp at hlen
    simp [hr, hne, hlen]
  · intro v r hr h1 h2
    unfold db_update_version
    have : (fun r : DbRow =>
        if r.titleId = (contentid.drop 7).take 9 ∧ r.key = 3168212510 then
          (⟨r.titleId, r.key, v⟩ : DbRow)
        else r) r = ⟨r.titleId, r.key, v⟩ := by
      simp [h1, h2]
    exact this ▸ List.mem_map_of_mem _ hr
  · intro v r hr hcase
    unfold db_update_version
    have : (fun r : DbRow =>
        if r.titleId = (contentid.drop 7).take 9 ∧ r.key = 3168212510 then
          (⟨r.titleId, r.key, v⟩ : DbRow)
        else r) r = r := by
      rcases hcase with h | h <;> simp [h]
    exact this ▸ List.mem_map_of_mem _ hr

/-- Witness for C9 at a concrete 36-character content id: the staged
directory is renamed to `ux0:patch/TEST00000` and the matching database
row is set to the 5-character version. -/
theorem install_update_spec_witness :
    pkgi_install_update "EP0000-TEST00000_00-0000000000000000"
        (fun _ => "01.00")
        ⟨["ux0:pkgj/EP0000-TEST00000_00-0000000000000000"]⟩
        [⟨"TEST00000", 3168212510, "00.99"⟩] =
      .ok (⟨(pkgi_delete_dir ⟨["ux0:pkgj/EP0000-TEST00000_00-0000000000000000"]⟩
              ("ux0:patch/" ++
                (("EP0000-TEST00000_00-0000000000000000" : String).drop 7).take 9)).dirs.map
              (fun d => if d = "ux0:pkgj/" ++ "EP0000-TEST00000_00-0000000000000000"
                then "ux0:patch/" ++
                  (("EP0000-TEST00000_00-0000000000000000" : String).drop 7).take 9
                else d)⟩,
           db_update_version [⟨"TEST00000", 3168212510, "00.99"⟩]
             ((("EP0000-TEST00000_00-0000000000000000" : String).drop 7).take 9)
             ((fun _ => "01.00")
               ("ux0:patch/" ++
                 (("EP0000-TEST00000_00-0000000000000000" : String).drop 7).take 9 ++
                 "/sce_sys/param.sfo"))) :=
  (install_update_spec "EP0000-TEST00000_00-0000000000000000" (fun _ => "01.00")
    ⟨["ux0:pkgj/EP0000-TEST00000_00-0000000000000000"]⟩
    [⟨"TEST00000", 3168212510, "00.99"⟩]).2.1 (by decide) (by decide)

/-- C10: `pkgi_get_game_version` returns the `APP_VER` from
`ux0:patch/<titleid>/sce_sys/param.sfo` whenever the patch directory
exists (taking precedence over the app directory), else the `APP_VER`
from `ux0:app/<titleid>/sce_sys/param.sfo` when the app directory
exists, else the empty string. -/
theorem game_version_spec (titleid : String) (fileExists : String → Bool)
    (sfoAppVer : String → String) :
    (fileExists ("ux0:patch/" ++ titleid) = true →
      pkgi_get_game_version titleid fileExists sfoAppVer =
        sfoAppVer ("ux0:patch/" ++ titleid ++ "/sce_sys/param.sfo")) ∧
    (fileExists ("ux0:patch/" ++ titleid) = false →
      fileExists ("ux0:app/" ++ titleid) = true →
      pkgi_get_game_version titleid fileExists sfoAppVer =
        sfoAppVer ("ux0:app/" ++ titleid ++ "/sce_sys/param.sfo")) ∧
    (fileExists ("ux0:patch/" ++ titleid) = false →
      fileExists ("ux0:app/" ++ titleid) = false →
      pkgi_get_game_version titleid fileExists sfoAppVer = "") := by
  refine ⟨fun h1 => ?_, fun h1 h2 => ?_, fun h1 h2 => ?_⟩
  · simp [pkgi_get_game_version, pkgi_extract_package_version, h1]
  · simp [pkgi_get_game_version, pkgi_extract_package_version, h1, h2]
  · simp [pkgi_get_game_version, pkgi_extract_package_version, h1, h2]

/-- Witness for C10: with only the patch directory present, the patch
`param.sfo` path is consulted. -/
theorem game_version_spec_witness :
    pkgi_get_game_version "T" (fun p => p == "ux0:patch/T") (fun p => p) =
      (fun p : String => p) ("ux0:patch/" ++ "T" ++ "/sce_sys/param.sfo") :=
  (game_version_spec "T" (fun p => p == "ux0:patch/T") (fun p => p)).1 (by decide)

end Pkgj
